import Mathlib

/-!
# The Technologies page of the Foodgram front-end

A shallow embedding of `frontend/src/pages/technologies/index.js`: the value of
the JSX expression returned by the `Technologies` component, as a tree of React
elements, together with the properties of that tree.
-/

namespace Foodgram

/-- JavaScript values that occur as property values of an element and as call
arguments of a component. -/
inductive JSValue
  | undefined
  | null
  | boolean (b : Bool)
  | number (n : Int)
  | string (s : String)
deriving DecidableEq, Repr

/-- The `type` of a React element: a lower-case JSX tag is a host (DOM) tag given by
its name, a capitalised JSX tag is the value bound to that identifier. -/
inductive ElemType (C : Type)
  | host (tag : String)
  | comp (c : C)
deriving DecidableEq, Repr

/-- A node of a markup tree: a text child or an element with its properties (in
source order) and its children. -/
inductive Node (C : Type)
  | text (s : String)
  | elem (type : ElemType C) (props : List (String × JSValue)) (children : List (Node C))
deriving Repr

/-- A child position between a JSX opening and closing tag, before evaluation:
literal text as written in the source, a nested element, or an expression container
holding only a comment. -/
inductive JSXChild (C : Type)
  | text (raw : String)
  | element (n : Node C)
  | emptyExpr

/-- The default export of a CSS module: an object from class names to generated
class names. -/
abbrev CssModule := List (String × String)

/-- Property access `styles.key` on a CSS module object: the bound string, or
`undefined` for a key the object lacks. -/
def CssModule.get (m : CssModule) (key : String) : JSValue :=
  match m.lookup key with
  | some v => .string v
  | none => .undefined

/-- The bindings made by the three `import` lines of the module, in source order. -/
structure Imports (C : Type) where
  Title : C
  Container : C
  Main : C
  styles : CssModule
  MetaTags : C

/-! ## JSX child text

Literal text between tags is split into lines; tabs become spaces; every line but the
first loses its leading spaces and every line but the last its trailing spaces; empty
lines are dropped and the rest are joined by single spaces. Text that cleans to
nothing yields no child. -/

/-- Split at line terminators (`\r\n`, `\n`, `\r`). -/
def splitLines : List Char → List (List Char)
  | [] => [[]]
  | c :: cs =>
    if c = '\n' then [] :: splitLines cs
    else if c = '\r' then
      match cs with
      | [] => [[], []]
      | d :: ds => if d = '\n' then [] :: splitLines ds else [] :: splitLines (d :: ds)
    else
      match splitLines cs with
      | [] => [[c]]
      | l :: ls => (c :: l) :: ls

/-- Remove leading spaces. -/
def dropSpaces : List Char → List Char
  | [] => []
  | c :: cs => if c = ' ' then dropSpaces cs else c :: cs

/-- Remove trailing spaces. -/
def dropSpacesRight (l : List Char) : List Char :=
  (dropSpaces l.reverse).reverse

/-- Replace tabs by spaces. -/
def untab (l : List Char) : List Char :=
  l.map fun c => if c = '\t' then ' ' else c

/-- Trim the lines of a JSX text and drop those that become empty. -/
def cleanLines : Bool → List (List Char) → List (List Char)
  | _, [] => []
  | isFirst, [l] =>
    let t := if isFirst then untab l else dropSpaces (untab l)
    if t = [] then [] else [t]
  | isFirst, l :: l' :: ls =>
    let t := dropSpacesRight (if isFirst then untab l else dropSpaces (untab l))
    if t = [] then cleanLines false (l' :: ls) else t :: cleanLines false (l' :: ls)

/-- The string child a JSX text evaluates to, if any. -/
def cleanJSXText (raw : String) : Option String :=
  match cleanLines true (splitLines raw.toList) with
  | [] => none
  | ls => some (String.mk (List.intercalate [' '] ls))

/-- The children of an element, from the child positions of its JSX form. -/
def jsxChildren {C : Type} : List (JSXChild C) → List (Node C)
  | [] => []
  | .text raw :: rest =>
    match cleanJSXText raw with
    | some s => .text s :: jsxChildren rest
    | none => jsxChildren rest
  | .element n :: rest => n :: jsxChildren rest
  | .emptyExpr :: rest => jsxChildren rest

/-- A JSX element `<type props>children</type>`. -/
def jsx {C : Type} (type : ElemType C) (props : List (String × JSValue))
    (children : List (JSXChild C)) : Node C :=
  .elem type props (jsxChildren children)

/-- The component `Technologies`: an arrow function without parameters, so whatever
arguments a caller passes are ignored; it returns the element tree of its JSX body. -/
def Technologies {C : Type} (env : Imports C) (_args : List JSValue) : Node C :=
  jsx (.comp env.Main) [] [
    .text "\n    ",
    .element (jsx (.comp env.MetaTags) [] [
      .text "\n      ",
      .element (jsx (.host "title") [] [.text "Технологии"]),
      .text "\n      ",
      .element (jsx (.host "meta") [("name", .string "description"), ("content", .string "Фудграм - Технологии")] []),
      .text "\n      ",
      .element (jsx (.host "meta") [("property", .string "og:title"), ("content", .string "Технологии")] []),
      .text "\n    "]),
    .text "\n\n    ",
    .element (jsx (.comp env.Container) [] [
      .text "\n      ",
      .element (jsx (.host "h1") [("className", env.styles.get "title")] [.text "Технологии"]),
      .text "\n      ",
      .element (jsx (.host "div") [("className", env.styles.get "content")] [
        .text "\n        ",
        .element (jsx (.host "div") [] [
          .text "\n\n          ",
          .element (jsx (.host "h2") [("className", env.styles.get "subtitle")] [.text "Ключевые технологии"]),
          .text "\n          ",
          .element (jsx (.host "div") [("className", env.styles.get "text")] [
            .text "\n            ",
            .element (jsx (.host "ul") [("className", env.styles.get "techList")] [
              .text "\n              ",
              .element (jsx (.host "li") [("className", env.styles.get "textItem")] [
                .text "\n                ",
                .element (jsx (.host "strong") [] [.text "Python"]),
                .text " — язык программирования, обеспечивающий гибкость и производительность.\n              "]),
              .text "\n              ",
              .element (jsx (.host "li") [("className", env.styles.get "textItem")] [
                .text "\n                ",
                .element (jsx (.host "strong") [] [.text "Django"]),
                .text " — мощный веб-фреймворк, который лёг в основу серверной части.\n              "]),
              .text "\n              ",
              .element (jsx (.host "li") [("className", env.styles.get "textItem")] [
                .text "\n                ",
                .element (jsx (.host "strong") [] [.text "Django REST Framework"]),
                .text " — расширение для создания REST API, которое сделало интеграцию с фронтендом бесшовной.\n              "]),
              .text "\n              ",
              .element (jsx (.host "li") [("className", env.styles.get "textItem")] [
                .text "\n                ",
                .element (jsx (.host "strong") [] [.text "Djoser"]),
                .text " — библиотека для удобного управления регистрацией и аутентификацией пользователей.\n              "]),
              .text "\n              ",
              .element (jsx (.host "li") [("className", env.styles.get "textItem")] [
                .text "\n                ",
                .element (jsx (.host "strong") [] [.text "PostgreSQL"]),
                .text " — надёжная реляционная база данных для хранения рецептов и информации о пользователях.\n              "]),
              .text "\n              ",
              .element (jsx (.host "li") [("className", env.styles.get "textItem")] [
                .text "\n                ",
                .element (jsx (.host "strong") [] [.text "Docker"]),
                .text " — контейнеризация проекта, что позволяет запускать его на любом сервере без лишних настроек.\n              "]),
              .text "\n              ",
              .element (jsx (.host "li") [("className", env.styles.get "textItem")] [
                .text "\n                ",
                .element (jsx (.host "strong") [] [.text "Nginx"]),
                .text " — веб-сервер, который отвечает за балансировку нагрузки и быструю доставку контента.\n              "]),
              .text "\n            "]),
            .text "\n          "]),
          .text "\n\n          ",
          .element (jsx (.host "h2") [("className", env.styles.get "subtitle")] [.text "Почему эти технологии?"]),
          .text "\n          ",
          .element (jsx (.host "p") [("className", env.styles.get "textItem")] [.text "\n            Каждая из выбранных технологий была выбрана исходя из своих уникальных преимуществ.\n            Вместе они составляют надёжный стек для разработки сложных веб-приложений с высокой доступностью\n            и возможностью масштабирования.\n          "]),
          .text "\n          ",
          .element (jsx (.host "p") [("className", env.styles.get "textItem")] [.text "\n            Благодаря этим инструментам проект получился не только функциональным, но и легко поддерживаемым,\n            что открывает широкие перспективы для его дальнейшего развития.\n          "]),
          .text "\n        "]),
        .text "\n        ",
        .emptyExpr,
        .text "\n        ",
        .element (jsx (.host "div") [("className", env.styles.get "imageContainer")] [
          .text "\n          ",
          .element (jsx (.host "img") [("src", .string "/technologies.jpg"), ("alt", .string "Технологии проекта"), ("className", env.styles.get "techImage")] []),
          .text "\n        "]),
        .text "\n      "]),
      .text "\n    "]),
    .text "\n  "]

/-! ## Reading a markup tree -/

/-- The property list of an element. -/
def Node.props {C : Type} : Node C → List (String × JSValue)
  | .text _ => []
  | .elem _ p _ => p

/-- The children of an element. -/
def Node.children {C : Type} : Node C → List (Node C)
  | .text _ => []
  | .elem _ _ cs => cs

/-- The value of a named property of an element, if it has one. -/
def Node.prop {C : Type} (n : Node C) (name : String) : Option JSValue :=
  n.props.lookup name

/-- Whether the node is a host element with the given tag name. -/
def Node.isHost {C : Type} (tag : String) : Node C → Bool
  | .elem (.host t) _ _ => t == tag
  | _ => false

/-- The component an element refers to, for an element whose type is a component. -/
def Node.component? {C : Type} : Node C → Option C
  | .elem (.comp c) _ _ => some c
  | _ => none

mutual
/-- The node and all its descendants in document order. -/
def Node.preorder {C : Type} : Node C → List (Node C)
  | .text s => [.text s]
  | .elem t p cs => .elem t p cs :: Node.preorderList cs
/-- Document order of a list of siblings. -/
def Node.preorderList {C : Type} : List (Node C) → List (Node C)
  | [] => []
  | c :: cs => c.preorder ++ Node.preorderList cs
end

mutual
/-- The concatenated text of the node and its descendants. -/
def Node.textContent {C : Type} : Node C → String
  | .text s => s
  | .elem _ _ cs => Node.textContentList cs
/-- Concatenated text of a list of siblings. -/
def Node.textContentList {C : Type} : List (Node C) → String
  | [] => ""
  | c :: cs => c.textContent ++ Node.textContentList cs
end

/-- All host elements with the given tag in the tree, in document order. -/
def Node.elementsByTag {C : Type} (n : Node C) (tag : String) : List (Node C) :=
  n.preorder.filter (Node.isHost tag)

/-- The components referred to by the elements of the tree, in document order. -/
def Node.componentsUsed {C : Type} (n : Node C) : List C :=
  n.preorder.filterMap Node.component?

/-- The node reached by following child indices from the root. -/
def Node.descend {C : Type} : Node C → List Nat → Option (Node C)
  | n, [] => some n
  | n, i :: is =>
    match n.children.get? i with
    | some c => c.descend is
    | none => none

/-- The seven technologies the page is specified to name, in the order of the
specification. -/
def technologyNames : List String :=
  ["Python", "Django", "Django REST Framework", "Djoser", "PostgreSQL", "Docker", "Nginx"]

/-- Rendered form of one entry of the technology list. -/
def techItem {C : Type} (env : Imports C) (entry : String × String) : Node C :=
  .elem (.host "li") [("className", env.styles.get "textItem")]
    [.elem (.host "strong") [] [.text entry.1], .text entry.2]

/-- Names and descriptions of the technology list as rendered. -/
def techEntries : List (String × String) :=
  [("Python", " — язык программирования, обеспечивающий гибкость и производительность."),
   ("Django", " — мощный веб-фреймворк, который лёг в основу серверной части."),
   ("Django REST Framework", " — расширение для создания REST API, которое сделало интеграцию с фронтендом бесшовной."),
   ("Djoser", " — библиотека для удобного управления регистрацией и аутентификацией пользователей."),
   ("PostgreSQL", " — надёжная реляционная база данных для хранения рецептов и информации о пользователях."),
   ("Docker", " — контейнеризация проекта, что позволяет запускать его на любом сервере без лишних настроек."),
   ("Nginx", " — веб-сервер, который отвечает за балансировку нагрузки и быструю доставку контента.")]

/-- Rendered form of one explanatory paragraph. -/
def paragraph {C : Type} (env : Imports C) (body : String) : Node C :=
  .elem (.host "p") [("className", env.styles.get "textItem")] [.text body]

/-- Texts of the explanatory paragraphs as rendered. -/
def paragraphTexts : List String :=
  ["Каждая из выбранных технологий была выбрана исходя из своих уникальных преимуществ. Вместе они составляют надёжный стек для разработки сложных веб-приложений с высокой доступностью и возможностью масштабирования.",
   "Благодаря этим инструментам проект получился не только функциональным, но и легко поддерживаемым, что открывает широкие перспективы для его дальнейшего развития."]

/-- Rendered form of the metadata block. -/
def metaBlock {C : Type} (env : Imports C) : Node C :=
  .elem (.comp env.MetaTags) []
    [.elem (.host "title") [] [.text "Технологии"],
     .elem (.host "meta") [("name", .string "description"), ("content", .string "Фудграм - Технологии")] [],
     .elem (.host "meta") [("property", .string "og:title"), ("content", .string "Технологии")] []]

/-- Rendered form of the technology list. -/
def techList {C : Type} (env : Imports C) : Node C :=
  .elem (.host "ul") [("className", env.styles.get "techList")] (techEntries.map (techItem env))

/-- Rendered form of the image. -/
def techImage {C : Type} (env : Imports C) : Node C :=
  .elem (.host "img")
    [("src", .string "/technologies.jpg"), ("alt", .string "Технологии проекта"),
     ("className", env.styles.get "techImage")] []

/-- Rendered form of the page heading. -/
def heading {C : Type} (env : Imports C) : Node C :=
  .elem (.host "h1") [("className", env.styles.get "title")] [.text "Технологии"]

/-- Rendered form of the content block. -/
def contentBlock {C : Type} (env : Imports C) : Node C :=
  .elem (.host "div") [("className", env.styles.get "content")]
    [.elem (.host "div") []
       ([.elem (.host "h2") [("className", env.styles.get "subtitle")] [.text "Ключевые технологии"],
         .elem (.host "div") [("className", env.styles.get "text")] [techList env],
         .elem (.host "h2") [("className", env.styles.get "subtitle")] [.text "Почему эти технологии?"]]
        ++ paragraphTexts.map (paragraph env)),
     .elem (.host "div") [("className", env.styles.get "imageContainer")] [techImage env]]

/-- Rendered form of the width-constrained wrapper. -/
def containerBlock {C : Type} (env : Imports C) : Node C :=
  .elem (.comp env.Container) [] [heading env, contentBlock env]

/-- The tree `Technologies` evaluates to, with the child text already cleaned. -/
def rendered {C : Type} (env : Imports C) : Node C :=
  .elem (.comp env.Main) [] [metaBlock env, containerBlock env]

/-- Host tags of the visible content of the page. -/
def visibleTags : List String :=
  ["h1", "h2", "ul", "li", "strong", "p", "img"]

/-- Bindings with pairwise distinct components and a CSS module that knows some of
the class names used by the page. -/
def sampleImports : Imports String where
  Title := "Title"
  Container := "Container"
  Main := "Main"
  styles := [("title", "style_title__x1"), ("content", "style_content__x2")]
  MetaTags := "MetaTags"

/-- The same bindings with another `Title` component. -/
def otherImports : Imports String where
  Title := "Heading"
  Container := "Container"
  Main := "Main"
  styles := [("title", "style_title__x1"), ("content", "style_content__x2")]
  MetaTags := "MetaTags"

/-! ## Evaluation with run-time errors

The only operation in the body of `Technologies` that JavaScript can reject is the
property access `styles.key`, which throws a `TypeError` when `styles` is `undefined`
or `null`. The definitions below evaluate the same JSX body with that failure made
explicit, in evaluation order: the properties of an element, then its children, left
to right. -/

/-- Errors thrown by evaluation. -/
inductive JSError
  | typeError (object : String) (property : String)
deriving DecidableEq, Repr

/-- What the default import of the style sheet is bound to at run time. -/
inductive ModuleValue
  | undefined
  | null
  | object (m : CssModule)
deriving DecidableEq, Repr

/-- The bindings of the module with the run-time value of `styles`. -/
structure Scope (C : Type) where
  Title : C
  Container : C
  Main : C
  styles : ModuleValue
  MetaTags : C

/-- Property access `object.key`: reading a property of `undefined` or `null` throws,
reading one of an object never does. -/
def getProperty (name : String) (object : ModuleValue) (key : String) :
    Except JSError JSValue :=
  match object with
  | .object m => .ok (m.get key)
  | .undefined => .error (.typeError name key)
  | .null => .error (.typeError name key)

/-- A child position whose nested element is still to be evaluated. -/
inductive JSXChildE (C : Type)
  | text (raw : String)
  | element (n : Except JSError (Node C))
  | emptyExpr

/-- Evaluate the property expressions of an element in source order. -/
def evalProps : List (String × Except JSError JSValue) →
    Except JSError (List (String × JSValue))
  | [] => .ok []
  | (k, v) :: rest =>
    match v with
    | .error e => .error e
    | .ok x =>
      match evalProps rest with
      | .error e => .error e
      | .ok xs => .ok ((k, x) :: xs)

/-- Evaluate the child positions of an element in source order. -/
def evalChildren {C : Type} : List (JSXChildE C) → Except JSError (List (JSXChild C))
  | [] => .ok []
  | c :: rest =>
    match c with
    | .text raw =>
      match evalChildren rest with
      | .error e => .error e
      | .ok cs => .ok (.text raw :: cs)
    | .emptyExpr =>
      match evalChildren rest with
      | .error e => .error e
      | .ok cs => .ok (.emptyExpr :: cs)
    | .element (.error e) => .error e
    | .element (.ok n) =>
      match evalChildren rest with
      | .error e => .error e
      | .ok cs => .ok (.element n :: cs)

/-- A JSX element whose property expressions and nested elements may throw. -/
def jsxE {C : Type} (type : ElemType C) (props : List (String × Except JSError JSValue))
    (children : List (JSXChildE C)) : Except JSError (Node C) :=
  match evalProps props with
  | .error e => .error e
  | .ok ps =>
    match evalChildren children with
    | .error e => .error e
    | .ok cs => .ok (jsx type ps cs)

/-- A call of the component `Technologies` under the given bindings: the arguments are
ignored and the JSX body is evaluated; the call returns the tree or throws. -/
def Technologies.call {C : Type} (sc : Scope C) (_args : List JSValue) :
    Except JSError (Node C) :=
  jsxE (.comp sc.Main) [] [
    .text "\n    ",
    .element (jsxE (.comp sc.MetaTags) [] [
      .text "\n      ",
      .element (jsxE (.host "title") [] [.text "Технологии"]),
      .text "\n      ",
      .element (jsxE (.host "meta") [("name", .ok (.string "description")), ("content", .ok (.string "Фудграм - Технологии"))] []),
      .text "\n      ",
      .element (jsxE (.host "meta") [("property", .ok (.string "og:title")), ("content", .ok (.string "Технологии"))] []),
      .text "\n    "]),
    .text "\n\n    ",
    .element (jsxE (.comp sc.Container) [] [
      .text "\n      ",
      .element (jsxE (.host "h1") [("className", getProperty "styles" sc.styles "title")] [.text "Технологии"]),
      .text "\n      ",
      .element (jsxE (.host "div") [("className", getProperty "styles" sc.styles "content")] [
        .text "\n        ",
        .element (jsxE (.host "div") [] [
          .text "\n\n          ",
          .element (jsxE (.host "h2") [("className", getProperty "styles" sc.styles "subtitle")] [.text "Ключевые технологии"]),
          .text "\n          ",
          .element (jsxE (.host "div") [("className", getProperty "styles" sc.styles "text")] [
            .text "\n            ",
            .element (jsxE (.host "ul") [("className", getProperty "styles" sc.styles "techList")] [
              .text "\n              ",
              .element (jsxE (.host "li") [("className", getProperty "styles" sc.styles "textItem")] [
                .text "\n                ",
                .element (jsxE (.host "strong") [] [.text "Python"]),
                .text " — язык программирования, обеспечивающий гибкость и производительность.\n              "]),
              .text "\n              ",
              .element (jsxE (.host "li") [("className", getProperty "styles" sc.styles "textItem")] [
                .text "\n                ",
                .element (jsxE (.host "strong") [] [.text "Django"]),
                .text " — мощный веб-фреймворк, который лёг в основу серверной части.\n              "]),
              .text "\n              ",
              .element (jsxE (.host "li") [("className", getProperty "styles" sc.styles "textItem")] [
                .text "\n                ",
                .element (jsxE (.host "strong") [] [.text "Django REST Framework"]),
                .text " — расширение для создания REST API, которое сделало интеграцию с фронтендом бесшовной.\n              "]),
              .text "\n              ",
              .element (jsxE (.host "li") [("className", getProperty "styles" sc.styles "textItem")] [
                .text "\n                ",
                .element (jsxE (.host "strong") [] [.text "Djoser"]),
                .text " — библиотека для удобного управления регистрацией и аутентификацией пользователей.\n              "]),
              .text "\n              ",
              .element (jsxE (.host "li") [("className", getProperty "styles" sc.styles "textItem")] [
                .text "\n                ",
                .element (jsxE (.host "strong") [] [.text "PostgreSQL"]),
                .text " — надёжная реляционная база данных для хранения рецептов и информации о пользователях.\n              "]),
              .text "\n              ",
              .element (jsxE (.host "li") [("className", getProperty "styles" sc.styles "textItem")] [
                .text "\n                ",
                .element (jsxE (.host "strong") [] [.text "Docker"]),
                .text " — контейнеризация проекта, что позволяет запускать его на любом сервере без лишних настроек.\n              "]),
              .text "\n              ",
              .element (jsxE (.host "li") [("className", getProperty "styles" sc.styles "textItem")] [
                .text "\n                ",
                .element (jsxE (.host "strong") [] [.text "Nginx"]),
                .text " — веб-сервер, который отвечает за балансировку нагрузки и быструю доставку контента.\n              "]),
              .text "\n            "]),
            .text "\n          "]),
          .text "\n\n          ",
          .element (jsxE (.host "h2") [("className", getProperty "styles" sc.styles "subtitle")] [.text "Почему эти технологии?"]),
          .text "\n          ",
          .element (jsxE (.host "p") [("className", getProperty "styles" sc.styles "textItem")] [.text "\n            Каждая из выбранных технологий была выбрана исходя из своих уникальных преимуществ.\n            Вместе они составляют надёжный стек для разработки сложных веб-приложений с высокой доступностью\n            и возможностью масштабирования.\n          "]),
          .text "\n          ",
          .element (jsxE (.host "p") [("className", getProperty "styles" sc.styles "textItem")] [.text "\n            Благодаря этим инструментам проект получился не только функциональным, но и легко поддерживаемым,\n            что открывает широкие перспективы для его дальнейшего развития.\n          "]),
          .text "\n        "]),
        .text "\n        ",
        .emptyExpr,
        .text "\n        ",
        .element (jsxE (.host "div") [("className", getProperty "styles" sc.styles "imageContainer")] [
          .text "\n          ",
          .element (jsxE (.host "img") [("src", .ok (.string "/technologies.jpg")), ("alt", .ok (.string "Технологии проекта")), ("className", getProperty "styles" sc.styles "techImage")] []),
          .text "\n        "]),
        .text "\n      "]),
      .text "\n    "]),
    .text "\n  "]

/-- Bindings as the import lines make them: distinct components and a CSS module
object for `styles`. -/
def sampleScope : Scope String where
  Title := "Title"
  Container := "Container"
  Main := "Main"
  styles := .object [("title", "style_title__x1"), ("content", "style_content__x2")]
  MetaTags := "MetaTags"

/-! ## Evaluation of the component -/

set_option maxRecDepth 100000

/-- Evaluating the JSX body of `Technologies` gives the rendered tree. -/
theorem Technologies_eq_rendered {C : Type} (env : Imports C) (args : List JSValue) :
    Technologies env args = rendered env := by
  rfl

theorem li_elements {C : Type} (env : Imports C) :
    (rendered env).elementsByTag "li" = techEntries.map (techItem env) := by
  rfl

theorem p_elements {C : Type} (env : Imports C) :
    (rendered env).elementsByTag "p" = paragraphTexts.map (paragraph env) := by
  rfl

theorem techEntries_names : techEntries.map Prod.fst = technologyNames := by
  decide

theorem techEntries_desc : ∀ e ∈ techEntries, e.2 ≠ "" := by
  decide

theorem paragraphTexts_ne : ∀ s ∈ paragraphTexts, s ≠ "" := by
  decide

/-- With `styles` unbound the first property access of the body throws. -/
theorem call_throws_of_undefined_styles {C : Type} (t k m mt : C) (args : List JSValue) :
    Technologies.call ⟨t, k, m, .undefined, mt⟩ args = .error (.typeError "styles" "title") := by
  rfl

/-! ## Properties of the rendered page -/

/-- C1: the tree returned by `Technologies` has exactly seven `li` elements, and each
has a `strong` child whose text is one of the seven technology names. -/
theorem C1_seven_list_items {C : Type} (env : Imports C) (args : List JSValue) :
    ((Technologies env args).elementsByTag "li").length = 7 ∧
    ∀ li ∈ (Technologies env args).elementsByTag "li",
      ∃ s ∈ li.children, s.isHost "strong" = true ∧ s.textContent ∈ technologyNames := by
  rw [Technologies_eq_rendered, li_elements]
  refine ⟨rfl, ?_⟩
  intro li hli
  obtain ⟨e, he, rfl⟩ := List.mem_map.1 hli
  refine ⟨.elem (.host "strong") [] [.text e.1], ?_, rfl, ?_⟩
  · simp [techItem, Node.children]
  · have hn : e.1 ∈ techEntries.map Prod.fst := List.mem_map.2 ⟨e, he, rfl⟩
    rw [techEntries_names] at hn
    simpa [Node.textContent, Node.textContentList] using hn

/-- C2: the tree returned by `Technologies` has exactly one `h1` element, and its text
content is "Технологии". -/
theorem C2_single_heading {C : Type} (env : Imports C) (args : List JSValue) :
    ∃ h, (Technologies env args).elementsByTag "h1" = [h] ∧ h.textContent = "Технологии" := by
  rw [Technologies_eq_rendered]
  exact ⟨heading env, rfl, rfl⟩

/-- C3: the tree returned by `Technologies` has exactly one `img` element, with `src`
"/technologies.jpg" and `alt` "Технологии проекта". -/
theorem C3_single_image {C : Type} (env : Imports C) (args : List JSValue) :
    ∃ i, (Technologies env args).elementsByTag "img" = [i] ∧
      i.prop "src" = some (.string "/technologies.jpg") ∧
      i.prop "alt" = some (.string "Технологии проекта") := by
  rw [Technologies_eq_rendered]
  exact ⟨techImage env, rfl, rfl, rfl⟩

/-- C4: the result of `Technologies` is fixed by the primitives `Main`, `Container`,
`MetaTags` and the `styles` lookup: two invocations under bindings that agree on these
return the same tree, whatever arguments are passed to either. -/
theorem C4_constant_result {C : Type} (env₁ env₂ : Imports C) (args₁ args₂ : List JSValue)
    (hMain : env₁.Main = env₂.Main) (hContainer : env₁.Container = env₂.Container)
    (hMeta : env₁.MetaTags = env₂.MetaTags) (hStyles : env₁.styles = env₂.styles) :
    Technologies env₁ args₁ = Technologies env₂ args₂ := by
  have hItem : techItem env₁ = techItem env₂ := by
    funext e
    simp only [techItem, hStyles]
  have hPar : paragraph env₁ = paragraph env₂ := by
    funext b
    simp only [paragraph, hStyles]
  rw [Technologies_eq_rendered, Technologies_eq_rendered]
  simp only [rendered, metaBlock, containerBlock, heading, contentBlock, techList, techImage,
    hItem, hPar, hMain, hContainer, hMeta, hStyles]

/-- Witness of C4: bindings that differ in `Title` only, called with different
arguments. -/
theorem C4_constant_result_witness :
    sampleImports.Main = otherImports.Main ∧ sampleImports.Container = otherImports.Container ∧
    sampleImports.MetaTags = otherImports.MetaTags ∧ sampleImports.styles = otherImports.styles ∧
    Technologies sampleImports [] = Technologies otherImports [.string "x", .number 3] :=
  ⟨rfl, rfl, rfl, rfl, C4_constant_result sampleImports otherImports [] [.string "x", .number 3]
    rfl rfl rfl rfl⟩

/-- C5: the tree returned by `Technologies` has a `MetaTags` child holding a `title`
element with text "Технологии", a `meta` element named "description" with content
"Фудграм - Технологии", and a `meta` element with property "og:title" and content
"Технологии". -/
theorem C5_metadata_block {C : Type} (env : Imports C) (args : List JSValue) :
    ∃ m ∈ (Technologies env args).children, m.component? = some env.MetaTags ∧
      (∃ t ∈ m.children, t.isHost "title" = true ∧ t.textContent = "Технологии") ∧
      (∃ d ∈ m.children, d.isHost "meta" = true ∧
        d.prop "name" = some (.string "description") ∧
        d.prop "content" = some (.string "Фудграм - Технологии")) ∧
      (∃ o ∈ m.children, o.isHost "meta" = true ∧
        o.prop "property" = some (.string "og:title") ∧
        o.prop "content" = some (.string "Технологии")) := by
  rw [Technologies_eq_rendered]
  refine ⟨metaBlock env, ?_, rfl, ?_, ?_, ?_⟩
  · simp [rendered, Node.children]
  · exact ⟨.elem (.host "title") [] [.text "Технологии"], by simp [metaBlock, Node.children],
      rfl, rfl⟩
  · exact ⟨.elem (.host "meta")
      [("name", .string "description"), ("content", .string "Фудграм - Технологии")] [],
      by simp [metaBlock, Node.children], rfl, rfl, rfl⟩
  · exact ⟨.elem (.host "meta")
      [("property", .string "og:title"), ("content", .string "Технологии")] [],
      by simp [metaBlock, Node.children], rfl, rfl, rfl⟩

/-- C6: the tree returned by `Technologies` has exactly two `p` elements, each with a
single non-empty text child; both lie in the content block (the `div` with class
`styles.content`, second child of `Container`), where in document order they follow
the `ul`, and neither lies inside the `ul`. -/
theorem C6_two_paragraphs {C : Type} (env : Imports C) (args : List JSValue) :
    ((Technologies env args).elementsByTag "p").length = 2 ∧
    (∀ p ∈ (Technologies env args).elementsByTag "p", ∃ s, p.children = [.text s] ∧ s ≠ "") ∧
    ∃ cb u, (Technologies env args).descend [1, 1] = some cb ∧
      cb.isHost "div" = true ∧ cb.prop "className" = some (env.styles.get "content") ∧
      cb.elementsByTag "p" = (Technologies env args).elementsByTag "p" ∧
      cb.elementsByTag "ul" = [u] ∧ u.elementsByTag "p" = [] ∧
      (cb.preorder.filter fun n => n.isHost "ul" || n.isHost "p") =
        u :: (Technologies env args).elementsByTag "p" := by
  rw [Technologies_eq_rendered, p_elements]
  refine ⟨rfl, ?_, contentBlock env, techList env, rfl, rfl, rfl, rfl, rfl, rfl, rfl⟩
  intro p hp
  obtain ⟨s, hs, rfl⟩ := List.mem_map.1 hp
  exact ⟨s, rfl, paragraphTexts_ne s hs⟩

/-- C7: a call of `Technologies` never throws and always returns a markup tree. Under
bindings whose `styles` is a CSS module object, as the import of the style sheet makes
it, the call returns, for all call arguments, the tree of the page. -/
theorem C7_always_returns_tree {C : Type} (sc : Scope C) (m : CssModule)
    (args : List JSValue) (hStyles : sc.styles = .object m) :
    Technologies.call sc args =
      .ok (Technologies ⟨sc.Title, sc.Container, sc.Main, m, sc.MetaTags⟩ args) := by
  obtain ⟨t, k, mn, st, mt⟩ := sc
  simp only at hStyles
  subst hStyles
  rfl

/-- Witness of C7: a call with two arguments under bindings with a CSS module object. -/
theorem C7_always_returns_tree_witness :
    sampleScope.styles = .object sampleImports.styles ∧
    Technologies.call sampleScope [.boolean true, .null] =
      .ok (Technologies sampleImports [.boolean true, .null]) :=
  ⟨rfl, C7_always_returns_tree sampleScope sampleImports.styles [.boolean true, .null] rfl⟩

/-- C8 as stated fails: under bindings with distinct components, the tree returned by
`Technologies` contains no element whose type is the imported `Title`. -/
theorem C8_title_not_used :
    ¬ sampleImports.Title ∈ (Technologies sampleImports []).componentsUsed := by
  rw [Technologies_eq_rendered]
  decide

/-- C8 amended: the root of the tree returned by `Technologies` is a `Main` element
whose children are exactly a `MetaTags` element followed by a `Container` element; the
elements of every visible host tag all lie inside `Container`; the components the tree
refers to are `Main`, `MetaTags` and `Container` only, so `Title` is not referred to
unless it is one of these; the heading is the single host `h1` element, with class
`styles.title` and one text child; and the page title in `MetaTags` is the single
host `title` element. -/
theorem C8_layout_composition {C : Type} (env : Imports C) (args : List JSValue) :
    ∃ m c, Technologies env args = .elem (.comp env.Main) [] [m, c] ∧
      m.component? = some env.MetaTags ∧ c.component? = some env.Container ∧
      (∀ tag ∈ visibleTags,
        (Technologies env args).elementsByTag tag = c.elementsByTag tag) ∧
      (Technologies env args).componentsUsed = [env.Main, env.MetaTags, env.Container] ∧
      (env.Title ∉ [env.Main, env.MetaTags, env.Container] →
        env.Title ∉ (Technologies env args).componentsUsed) ∧
      (∃ h text, (Technologies env args).elementsByTag "h1" = [h] ∧
        h = .elem (.host "h1") [("className", env.styles.get "title")] [.text text]) ∧
      (∃ t text, (Technologies env args).elementsByTag "title" = [t] ∧
        m.elementsByTag "title" = [t] ∧ t = .elem (.host "title") [] [.text text]) := by
  rw [Technologies_eq_rendered]
  have hsplit : ∀ tag, (rendered env).elementsByTag tag =
      (metaBlock env).elementsByTag tag ++ (containerBlock env).elementsByTag tag := by
    intro tag
    simp [rendered, Node.elementsByTag, Node.preorder, Node.preorderList, Node.isHost]
  have hmeta : ∀ tag ∈ visibleTags, (metaBlock env).elementsByTag tag = [] := by
    intro tag htag
    simp only [visibleTags, List.mem_cons, List.mem_singleton, List.not_mem_nil, or_false] at htag
    rcases htag with rfl | rfl | rfl | rfl | rfl | rfl | rfl <;> rfl
  have hused : (rendered env).componentsUsed = [env.Main, env.MetaTags, env.Container] := rfl
  refine ⟨metaBlock env, containerBlock env, rfl, rfl, rfl, ?_, hused, ?_,
    ⟨heading env, "Технологии", rfl, rfl⟩,
    ⟨.elem (.host "title") [] [.text "Технологии"], "Технологии", rfl, rfl, rfl⟩⟩
  · intro tag htag
    rw [hsplit, hmeta tag htag, List.nil_append]
  · intro hT
    rw [hused]
    exact hT

/-- Witness of C8 amended: under bindings with pairwise distinct components the tree
has the stated layout and `Title` is not among the components it refers to. -/
theorem C8_layout_composition_witness :
    sampleImports.Title ∉ [sampleImports.Main, sampleImports.MetaTags, sampleImports.Container] ∧
    (Technologies sampleImports []).componentsUsed = ["Main", "MetaTags", "Container"] ∧
    ((Technologies sampleImports []).elementsByTag "h1").map (fun h => h.prop "className") =
      [some (.string "style_title__x1")] := by
  obtain ⟨m, c, _, _, _, _, hused, _, ⟨h, text, hh, rfl⟩, _⟩ :=
    C8_layout_composition sampleImports []
  refine ⟨by decide, hused, ?_⟩
  rw [hh]
  rfl

/-- C9: in the tree returned by `Technologies` there is one `ul`; its children are the
seven `li` elements of the tree; each consists of a `strong` element holding a name
followed by a non-empty text; the names, in document order, are the seven technology
names, which are pairwise distinct. -/
theorem C9_technology_list {C : Type} (env : Imports C) (args : List JSValue) :
    ∃ u, (Technologies env args).elementsByTag "ul" = [u] ∧
      (Technologies env args).elementsByTag "li" = u.children ∧
      u.children.length = 7 ∧
      (∀ li ∈ u.children, ∃ name desc,
        li.children = [.elem (.host "strong") [] [.text name], .text desc] ∧ desc ≠ "") ∧
      (u.children.map fun li => (li.children.headD (.text "")).textContent) = technologyNames ∧
      technologyNames.Nodup := by
  rw [Technologies_eq_rendered]
  refine ⟨techList env, rfl, rfl, rfl, ?_, rfl, by decide⟩
  intro li hli
  obtain ⟨e, he, rfl⟩ := List.mem_map.1 hli
  exact ⟨e.1, e.2, rfl, techEntries_desc e he⟩

/-- C10: in the tree returned by `Technologies` the text of the `title` element of the
`MetaTags` block, the content of its "og:title" `meta` element and the text of the
`h1` heading are the same string. -/
theorem C10_title_consistent {C : Type} (env : Imports C) (args : List JSValue) :
    ∃ m t o h, m ∈ (Technologies env args).children ∧ m.component? = some env.MetaTags ∧
      m.elementsByTag "title" = [t] ∧
      ((m.elementsByTag "meta").filter
        fun x => x.prop "property" == some (.string "og:title")) = [o] ∧
      (Technologies env args).elementsByTag "h1" = [h] ∧
      o.prop "content" = some (.string t.textContent) ∧
      h.textContent = t.textContent := by
  rw [Technologies_eq_rendered]
  refine ⟨metaBlock env, .elem (.host "title") [] [.text "Технологии"],
    .elem (.host "meta") [("property", .string "og:title"), ("content", .string "Технологии")] [],
    heading env, ?_, rfl, rfl, rfl, rfl, rfl, rfl⟩
  simp [rendered, Node.children]

end Foodgram
